import Mathlib

/-!
Shallow embedding of `utilities/parameter_estimation_utilities.py` from the
ModularityPruning repository, together with theorems settling the frozen
claims about its specification.

Modelling conventions:
* Edge weights and SBM parameters are embedded as rationals (`ℚ`); the
  resolution-parameter estimators, which take real logarithms (`math.log`,
  `np.log`), are embedded over `ℝ` with `Real.log`.
* A Python string compared with `is` against a source literal is embedded as
  a `PyStr` carrying its text together with an `interned` flag: `s is lit`
  holds exactly when `s` is the compile-time interned literal object, i.e.
  when `s.interned` holds and the texts agree.
* An igraph graph is embedded as a vertex count, an edge list of
  (source, target) pairs, and an optional weight attribute (one weight per
  edge when present).  The source tests `if "weight" not in G.es`; a
  python-igraph `EdgeSeq` has no attribute-name containment — `in` falls
  back to iterating the `Edge` objects, none of which ever equals a string —
  so that condition is always true and the weight-defaulting assignment runs
  on every call.  The branch is therefore embedded unconditionally.  The
  igraph attribute assignment `G.es["weight"] = ws` fails with a
  `ValueError` unless `ws` has exactly one entry per edge.
* Fallible code returns `Except String`; functions that write into their
  argument graph additionally return the resulting graph, so mutation is
  explicit state passing.
* Rational division is total with `x / 0 = 0`; Python raises
  `ZeroDivisionError` instead.  Where a claim is about zero divisors, a
  `checked` variant making each division explicit is used, and every closed
  theorem that asserts a successful (`.ok`) run evaluates the embedding only
  at inputs on which the corresponding Python execution divides by nonzero
  quantities throughout (in particular every per-layer weight `m_t[t]` is
  nonzero and `T ≥ 2` wherever a persistence statistic is computed).
* `scipy.optimize.fsolve` is external; it is passed as an explicit function
  argument (the starting point `0.5` is supplied at the call site as in the
  source).
-/

namespace ModularityPruning

/-- A Python string value together with whether it is the compile-time
interned literal object; `pyIs s lit` embeds the source expression
`s is "lit"` (CPython interns the string constants appearing in the code, so
identity against a literal holds exactly for the interned object of the same
text). -/
structure PyStr where
  val : String
  interned : Bool
deriving DecidableEq, Repr

/-- Embedding of the Python identity test `s is "lit"` for a literal. -/
def pyIs (s : PyStr) (lit : String) : Bool :=
  s.interned && s.val == lit

/-- An igraph graph: vertex count, edge list (source, target), and the
optional `weight` edge attribute (when present, one weight per edge). -/
structure Graph where
  vcount : ℕ
  edges : List (ℕ × ℕ)
  weights : Option (List ℚ)
deriving DecidableEq, Repr

/-- Number of edges, `G.ecount()`. -/
def Graph.ecount (G : Graph) : ℕ := G.edges.length

/-- The edge sequence paired with its weights, used to embed iteration
`for e in G.es` together with the reads `e.source`, `e.target`,
`e["weight"]` (callers below only iterate after ensuring the weight
attribute is present with one entry per edge). -/
def Graph.weightedEdges (G : Graph) : List ((ℕ × ℕ) × ℚ) :=
  G.edges.zip (G.weights.getD [])

/-- Embedding of the igraph attribute assignment `G.es["weight"] = ws`:
igraph raises a `ValueError` unless the list has exactly one entry per
edge. -/
def setEdgeWeights (G : Graph) (ws : List ℚ) : Except String Graph :=
  if ws.length = G.edges.length then
    .ok { G with weights := some ws }
  else
    .error "ValueError: edge attribute value length does not match edge count"

/-- A louvain `RBConfigurationVertexPartition`: the membership vector together
with its number of communities `K = len(partition)`. -/
structure Partition where
  K : ℕ
  membership : List ℕ
deriving DecidableEq, Repr

/-- Modelled from the spec: `partition_utilities.num_communities` is not under
`src/`.  Per the spec (section 3), `K` is the number of distinct community
labels actually used.  `labelOrder` lists the distinct labels in order of
first appearance. -/
def labelOrder (m : List ℕ) : List ℕ :=
  m.foldl (fun acc c => if c ∈ acc then acc else acc ++ [c]) []

/-- Modelled from the spec: `partition_utilities.num_communities` is not under
`src/`; the number of distinct community labels used by a membership
vector. -/
def num_communities (m : List ℕ) : ℕ :=
  (labelOrder m).length

/-- Modelled from the spec: `louvain_utilities.sorted_tuple` is not under
`src/`.  Per the spec (section 4.5) it is the canonical (re-labelled)
representation of a membership vector: communities are renumbered in order of
first appearance. -/
def sorted_tuple (m : List ℕ) : List ℕ :=
  m.map fun c => (labelOrder m).indexOf c

/-- Modelled from the spec: `louvain_utilities.louvain_part_with_membership`
is not under `src/`.  It wraps a membership vector as a louvain partition
whose `len` is the number of communities actually used. -/
def louvain_part_with_membership (membership : List ℕ) : Partition :=
  ⟨num_communities membership, membership⟩

/-! ### Single-layer SBM parameter estimation (source lines 10-37) -/

/-- The total edge weight `m = sum(G.es["weight"])`. -/
def total_weight (G : Graph) : ℚ :=
  (G.weightedEdges.map (·.2)).sum

/-- The intra-community edge weight
`m_in = sum(e["weight"] * (community[e.source] == community[e.target]) for e in G.es)`. -/
def m_in (G : Graph) (community : List ℕ) : ℚ :=
  (G.weightedEdges.map fun ew =>
    if community.getD ew.1.1 0 = community.getD ew.1.2 0 then ew.2 else 0).sum

/-- One step of the per-community weighted-degree accumulation loop:
`kappa_r_list[community[e.source]] += e["weight"]` followed by the same for
the target endpoint. -/
def kappa_step (community : List ℕ) (ks : List ℚ) (ew : (ℕ × ℕ) × ℚ) : List ℚ :=
  let s := community.getD ew.1.1 0
  let t := community.getD ew.1.2 0
  let ks1 := ks.set s (ks.getD s 0 + ew.2)
  ks1.set t (ks1.getD t 0 + ew.2)

/-- The list `kappa_r_list` of per-community weighted degrees, built from
`[0] * len(partition)` by the loop over `G.es`. -/
def kappa_r_list (G : Graph) (K : ℕ) (community : List ℕ) : List ℚ :=
  G.weightedEdges.foldl (kappa_step community) (List.replicate K 0)

/-- `sum_kappa_sqr = sum(x ** 2 for x in kappa_r_list)`. -/
def sum_kappa_sqr (G : Graph) (K : ℕ) (community : List ℕ) : ℚ :=
  ((kappa_r_list G K community).map fun x => x ^ 2).sum

/-- Embedding of `estimate_singlelayer_SBM_parameters(G, partition)` (with
`m = None`, so `m` is computed as the total edge weight): returns
`(omega_in, omega_out)`. -/
def estimate_singlelayer_SBM_parameters (G : Graph) (partition : Partition) : ℚ × ℚ :=
  let m := total_weight G
  let community := partition.membership
  let min := m_in G community
  let sks := sum_kappa_sqr G partition.K community
  let omega_in := (2 * min) / (sks / (2 * m))
  let omega_out :=
    if 1 < partition.K then (2 * m - 2 * min) / (2 * m - sks / (2 * m)) else 0
  (omega_in, omega_out)

/-! ### Resolution-parameter estimators (source lines 133-177) -/

/-- Embedding of `gamma_estimate_from_parameters(omega_in, omega_out)`
(source lines 133-139): `None` when either parameter is zero, otherwise
`(omega_in - omega_out) / (np.log(omega_in) - np.log(omega_out))`. -/
noncomputable def gamma_estimate_from_parameters (omega_in omega_out : ℚ) : Option ℝ :=
  if omega_in = 0 ∨ omega_out = 0 then none
  else some (((omega_in : ℝ) - (omega_out : ℝ)) /
    (Real.log (omega_in : ℝ) - Real.log (omega_out : ℝ)))

/-- Embedding of
`multiplex_omega_estimate_from_parameters(theta_in, theta_out, p, K, T, omega_max)`
(source lines 142-160); every return path yields a number. -/
noncomputable def multiplex_omega_estimate_from_parameters
    (theta_in theta_out p : ℚ) (K T : ℕ) (omega_max : ℝ) : ℝ :=
  if 1 ≤ p ∨ theta_in = 1 then omega_max
  else if theta_out = 0 then
    Real.log (1 + (p : ℝ) * K / (1 - (p : ℝ))) / (T * Real.log (theta_in : ℝ))
  else
    Real.log (1 + (p : ℝ) * K / (1 - (p : ℝ))) /
      (T * (Real.log (theta_in : ℝ) - Real.log (theta_out : ℝ)))

/-- Embedding of
`temporal_multilevel_omega_estimate_from_parameters(theta_in, theta_out, p, K, omega_max)`
(source lines 163-177); every return path yields a number.  Note there is no
`theta_in == 1` guard in this variant. -/
noncomputable def temporal_multilevel_omega_estimate_from_parameters
    (theta_in theta_out p : ℚ) (K : ℕ) (omega_max : ℝ) : ℝ :=
  if theta_out = 0 then
    if p < 1 then
      Real.log (1 + (p : ℝ) * K / (1 - (p : ℝ))) / (2 * Real.log (theta_in : ℝ))
    else omega_max
  else
    if p < 1 then
      Real.log (1 + (p : ℝ) * K / (1 - (p : ℝ))) /
        (2 * (Real.log (theta_in : ℝ) - Real.log (theta_out : ℝ)))
    else omega_max

/-! ### Checked variants exposing Python float-division behaviour

`math.log` produces a Python `float`, and Python `float` division raises
`ZeroDivisionError` on a zero divisor; `np.log` produces a `np.float64`, and
numpy division follows IEEE semantics, so `0.0 / 0.0` yields `NaN` (with a
warning) rather than raising.  The variants below make each division of the
two estimators named by claim C8 explicit. -/

/-- A Python-float division as performed on `math.log` results: raises
`ZeroDivisionError` on a zero divisor. -/
noncomputable def pyDiv (x y : ℝ) : Except String ℝ :=
  if y = 0 then .error "ZeroDivisionError" else .ok (x / y)

/-- The possible results of `gamma_estimate_from_parameters` under numpy
float semantics: the `None` sentinel, an IEEE `NaN` (from the unguarded
`0.0 / 0.0`), or an ordinary number. -/
inductive NpGamma where
  | none
  | nan
  | num (x : ℝ)

/-- Embedding of `gamma_estimate_from_parameters` with the numpy division
made explicit: when both parameters are nonzero and the numerator and the
denominator `np.log(omega_in) - np.log(omega_out)` are both zero, the IEEE
division `0.0 / 0.0` yields `NaN` (the source has no guard for it).
Faithful for nonnegative parameters, the range produced by the SBM
estimators. -/
noncomputable def gamma_estimate_from_parameters_np (omega_in omega_out : ℚ) : NpGamma :=
  if omega_in = 0 ∨ omega_out = 0 then .none
  else if Real.log (omega_in : ℝ) - Real.log (omega_out : ℝ) = 0 ∧
      ((omega_in : ℝ) - (omega_out : ℝ)) = 0 then .nan
  else .num (((omega_in : ℝ) - (omega_out : ℝ)) /
    (Real.log (omega_in : ℝ) - Real.log (omega_out : ℝ)))

/-- Embedding of `temporal_multilevel_omega_estimate_from_parameters` with
each Python float division explicit (the inner `p * K / (1 - p)` and the
outer division by `2 * log(theta_in)` resp.
`2 * (log(theta_in) - log(theta_out))`). -/
noncomputable def temporal_multilevel_omega_estimate_checked
    (theta_in theta_out p : ℚ) (K : ℕ) (omega_max : ℝ) : Except String ℝ :=
  if theta_out = 0 then
    if p < 1 then do
      let r ← pyDiv ((p : ℝ) * K) (1 - (p : ℝ))
      pyDiv (Real.log (1 + r)) (2 * Real.log (theta_in : ℝ))
    else .ok omega_max
  else
    if p < 1 then do
      let r ← pyDiv ((p : ℝ) * K) (1 - (p : ℝ))
      pyDiv (Real.log (1 + r)) (2 * (Real.log (theta_in : ℝ) - Real.log (theta_out : ℝ)))
    else .ok omega_max

/-! ### Persistence statistics and model dispatch (source lines 180-247) -/

/-- Embedding of `ordinal_persistence(G_interlayer, community, N, T)`
(temporal model).  The division by `N * (T - 1)` is total rational division
(`x / 0 = 0`), whereas the source raises `ZeroDivisionError` when
`N * (T - 1) = 0` (for example `T = 1`); theorems asserting a successful run
only evaluate this at inputs with `N ≥ 1` and `T ≥ 2`. -/
def ordinal_persistence (G_interlayer : Graph) (community : List ℕ) (N T : ℕ) : ℚ :=
  (G_interlayer.edges.map fun e =>
    if community.getD e.1 0 = community.getD e.2 0 then (1 : ℚ) else 0).sum /
    ((N : ℚ) * ((T : ℚ) - 1))

/-- One step of the `pers_per_layer` accumulation loop of
`multilevel_persistence`. -/
def pers_layer_step (community layer_vec : List ℕ) (acc : List ℚ) (e : ℕ × ℕ) : List ℚ :=
  let l := layer_vec.getD e.2 0
  acc.set l (acc.getD l 0 +
    (if community.getD e.1 0 = community.getD e.2 0 then (1 : ℚ) else 0))

/-- Embedding of
`multilevel_persistence(G_interlayer, community, layer_vec, Nt, T)`. -/
def multilevel_persistence (G_interlayer : Graph) (community layer_vec : List ℕ)
    (Nt : List ℕ) (T : ℕ) : ℚ :=
  let pers_per_layer := G_interlayer.edges.foldl (pers_layer_step community layer_vec)
    (List.replicate T 0)
  (((List.range T).map fun l => pers_per_layer.getD l 0 / (Nt.getD l 0 : ℚ)).sum) /
    ((T : ℚ) - 1)

/-- Embedding of `categorical_persistence(G_interlayer, community, N, T)`
(multiplex model). -/
def categorical_persistence (G_interlayer : Graph) (community : List ℕ) (N T : ℕ) : ℚ :=
  (G_interlayer.edges.map fun e =>
    if community.getD e.1 0 = community.getD e.2 0 then (1 : ℚ) else 0).sum /
    ((N : ℚ) * (T : ℚ) * ((T : ℚ) - 1))

/-- Embedding of `omega_function_from_model(model, omega_max, T)` (source
lines 199-209).  The source compares the tag by identity and its second
branch tests `model is "temporal" or model is "multilayer"` — the literal
reads `multilayer`, not `multilevel`, although the error message and the
docstrings document the valid set as temporal, multilevel, multiplex. -/
noncomputable def omega_function_from_model (model : PyStr) (omega_max : ℝ) (T : ℕ) :
    Except String (ℚ → ℚ → ℚ → ℕ → ℝ) :=
  if pyIs model "multiplex" then
    .ok fun theta_in theta_out p K =>
      multiplex_omega_estimate_from_parameters theta_in theta_out p K T omega_max
  else if pyIs model "temporal" || pyIs model "multilayer" then
    .ok fun theta_in theta_out p K =>
      temporal_multilevel_omega_estimate_from_parameters theta_in theta_out p K omega_max
  else
    .error "ValueError: model is not temporal, multilevel, or multiplex"

/-- Embedding of
`persistence_function_from_model(model, G_interlayer, layer_vec, N, T, Nt)`
(source lines 212-247); the tag is again compared by identity. -/
def persistence_function_from_model (model : PyStr) (G_interlayer : Graph)
    (layer_vec : Option (List ℕ)) (N T : Option ℕ) (Nt : Option (List ℕ)) :
    Except String (List ℕ → ℚ) :=
  if pyIs model "temporal" then
    match N, T with
    | some n, some t => .ok fun community => ordinal_persistence G_interlayer community n t
    | _, _ => .error "ValueError: parameters N and T cannot be None for temporal persistence calculation"
  else if pyIs model "multilevel" then
    match Nt, T, layer_vec with
    | some nt, some t, some lv =>
      .ok fun community => multilevel_persistence G_interlayer community lv nt t
    | _, _, _ => .error "ValueError: parameters layer_vec, Nt, T cannot be None for multilevel persistence calculation"
  else if pyIs model "multiplex" then
    match N, T with
    | some n, some t => .ok fun community => categorical_persistence G_interlayer community n t
    | _, _ => .error "ValueError: parameters N and T cannot be None for multiplex persistence calculation"
  else
    .error "ValueError: model is not temporal, multilevel, or multiplex"

/-! ### Multilayer SBM parameter estimation (source lines 40-117) -/

/-- One step of the per-layer total-weight loop `m_t[layer_vec[e.source]] += e["weight"]`. -/
def m_t_step (layer_vec : List ℕ) (acc : List ℚ) (ew : (ℕ × ℕ) × ℚ) : List ℚ :=
  let l := layer_vec.getD ew.1.1 0
  acc.set l (acc.getD l 0 + ew.2)

/-- One step of the per-layer node-count loop `Nt[l] += 1`. -/
def nt_step (acc : List ℕ) (l : ℕ) : List ℕ :=
  acc.set l (acc.getD l 0 + 1)

/-- One step of the per-layer intra-community weight loop: adds the weight to
`m_t_in[layer_vec[e.source]]` when the endpoints share a community and a
layer. -/
def m_t_in_step (community layer_vec : List ℕ) (acc : List ℚ) (ew : (ℕ × ℕ) × ℚ) : List ℚ :=
  if community.getD ew.1.1 0 = community.getD ew.1.2 0 ∧
      layer_vec.getD ew.1.1 0 = layer_vec.getD ew.1.2 0 then
    let l := layer_vec.getD ew.1.1 0
    acc.set l (acc.getD l 0 + ew.2)
  else acc

/-- One step of the per-(layer, community) weighted-degree loop over
`kappa_t_r_list`. -/
def kappa_grid_step (community layer_vec : List ℕ) (grid : List (List ℚ))
    (ew : (ℕ × ℕ) × ℚ) : List (List ℚ) :=
  let layer := layer_vec.getD ew.1.1 0
  let s := community.getD ew.1.1 0
  let t := community.getD ew.1.2 0
  let row := grid.getD layer []
  let row1 := row.set s (row.getD s 0 + ew.2)
  let row2 := row1.set t (row1.getD t 0 + ew.2)
  grid.set layer row2

/-- Embedding of
`estimate_multilayer_SBM_parameters(G_intralayer, G_interlayer, layer_vec, partition, model, N, T, Nt, m_t)`
(source lines 40-117), returning the weight-defaulted intralayer graph
together with `(theta_in, theta_out, p, K)`.  The guard
`if "weight" not in G_intralayer.es` is always true (igraph `EdgeSeq`
containment never matches a string), so the assignment
`G_intralayer.es["weight"] = [1.0] * G_intralayer.ecount()` runs — and
overwrites any existing weights — on every call; it is embedded
unconditionally.  The external `scipy.optimize.fsolve` root finder is passed
as a function argument; the source invokes it on the multiplex persistence
polynomial with starting estimate `0.5`.  `max(layer_vec)` is embedded as a
fold (the source raises on an empty list).  The divisions by `2 * m_t[t]`,
by `N * (T - 1)` (inside the persistence statistics) and by `K - 1` are
total rational divisions here, whereas Python raises `ZeroDivisionError` on
a zero divisor; closed theorems about this function only evaluate it at
inputs where those divisors are nonzero. -/
def estimate_multilayer_SBM_parameters (fsolve : (ℚ → ℚ) → ℚ → ℚ)
    (G_intralayer G_interlayer : Graph) (layer_vec : List ℕ) (partition : Partition)
    (model : PyStr) (N T : Option ℕ) (Nt : Option (List ℕ)) (m_t : Option (List ℚ)) :
    Except String (Graph × ℚ × ℚ × ℚ × ℕ) := do
  let G ← setEdgeWeights G_intralayer (List.replicate G_intralayer.ecount 1)
  let T := match T with
    | some t => t
    | none => layer_vec.foldl max 0 + 1
  let N := match N with
    | some n => n
    | none => G.vcount / T
  let m_t := match m_t with
    | some l => l
    | none => G.weightedEdges.foldl (m_t_step layer_vec) (List.replicate T 0)
  let Nt := match Nt with
    | some l => l
    | none => layer_vec.foldl nt_step (List.replicate T 0)
  let K := partition.K
  let community := partition.membership
  let m_t_in := G.weightedEdges.foldl (m_t_in_step community layer_vec)
    (List.replicate T 0)
  let kappa_t_r_list := G.weightedEdges.foldl (kappa_grid_step community layer_vec)
    (List.replicate T (List.replicate K 0))
  let sum_kappa_t_sqr := (List.range T).map fun t =>
    ((kappa_t_r_list.getD t []).map fun x => x ^ 2).sum
  let theta_in := ((List.range T).map fun t => 2 * m_t_in.getD t 0).sum /
    ((List.range T).map fun t => sum_kappa_t_sqr.getD t 0 / (2 * m_t.getD t 0)).sum
  let theta_out_numerator := ((List.range T).map fun t =>
    2 * m_t.getD t 0 - 2 * m_t_in.getD t 0).sum
  let theta_out_denominator := ((List.range T).map fun t =>
    2 * m_t.getD t 0 - sum_kappa_t_sqr.getD t 0 / (2 * m_t.getD t 0)).sum
  let theta_out := if theta_out_denominator = 0 then 0
    else theta_out_numerator / theta_out_denominator
  let calculate_persistence ← persistence_function_from_model model G_interlayer
    (some layer_vec) (some N) (some T) (some Nt)
  let pers := calculate_persistence community
  let p : ℚ :=
    if pyIs model "multiplex" then
      let f : ℚ → ℚ := fun x =>
        let coeff := 2 * (1 - 1 / (K : ℚ)) / ((T : ℚ) * ((T : ℚ) - 1))
        coeff * (((List.range' 1 (T - 1)).map fun (n : ℕ) => ((T : ℚ) - (n : ℚ)) * x ^ n).sum) +
          1 / (K : ℚ) - pers
      if pers < 1 ∧ 1 < K then fsolve f (1 / 2) else 1
    else
      if pers < 1 ∧ 1 < K then max (((K : ℚ) * pers - 1) / ((K : ℚ) - 1)) 0 else 1
  return (G, theta_in, theta_out, p, K)

/-! ### Gamma and (gamma, omega) estimates (source lines 120-130, 250-307) -/

/-- Embedding of `gamma_estimate(G, partition)` (source lines 120-130) for a
membership-vector argument, returning the modified graph together with the
estimate.  The guard `if "weight" not in G.es` is always true (igraph
`EdgeSeq` containment never matches a string), so the assignment
`G.es["weight"] = [1.0] * G.vcount()` runs on every call; it is embedded
unconditionally.  Note the length used is the vertex count, not the edge
count, so the assignment fails with a `ValueError` whenever the two differ,
and otherwise overwrites any existing weights with 1.0. -/
noncomputable def gamma_estimate (G : Graph) (membership : List ℕ) :
    Except String (Graph × Option ℝ) := do
  let G' ← setEdgeWeights G (List.replicate G.vcount 1)
  let partition := louvain_part_with_membership membership
  let est := estimate_singlelayer_SBM_parameters G' partition
  return (G', gamma_estimate_from_parameters est.1 est.2)

/-- The graph produced by the always-run weight defaulting of
`gamma_estimate`: every edge weight overwritten with 1.0, one entry per
vertex (meaningful exactly when `vcount = ecount`, otherwise the igraph
assignment raises instead). -/
def unit_weighted (G : Graph) : Graph :=
  { G with weights := some (List.replicate G.vcount 1) }

/-- The estimate component computed by `gamma_estimate` on the graph
resulting from its weight defaulting (applies the single-layer estimator and
`gamma_estimate_from_parameters` to the given graph as-is). -/
noncomputable def gamma_estimate_value (G : Graph) (membership : List ℕ) : Option ℝ :=
  let est := estimate_singlelayer_SBM_parameters G (louvain_part_with_membership membership)
  gamma_estimate_from_parameters est.1 est.2

/-- Embedding of
`gamma_omega_estimate(G_intralayer, G_interlayer, layer_vec, membership, omega_max, model, N, T, Nt, m_t)`
(source lines 250-277), returning the possibly weight-defaulted intralayer
graph together with the pair `(gamma, omega)` as consumed by the stability
filter: the gamma component may be the `None` sentinel; the omega component
is the number produced by the dispatched omega estimator. -/
noncomputable def gamma_omega_estimate (fsolve : (ℚ → ℚ) → ℚ → ℚ)
    (G_intralayer G_interlayer : Graph) (layer_vec membership : List ℕ)
    (omega_max : ℝ) (model : PyStr) (N T : Option ℕ) (Nt : Option (List ℕ))
    (m_t : Option (List ℚ)) : Except String (Graph × Option ℝ × Option ℝ) := do
  let T := match T with
    | some t => t
    | none => layer_vec.foldl max 0 + 1
  let partition := louvain_part_with_membership membership
  let (G', theta_in, theta_out, p, K) ← estimate_multilayer_SBM_parameters fsolve
    G_intralayer G_interlayer layer_vec partition model N (some T) Nt m_t
  let update_omega ← omega_function_from_model model omega_max T
  return (G', gamma_estimate_from_parameters theta_in theta_out,
    some (update_omega theta_in theta_out p K))

/-! ### Stability filters and the pruning pipeline (source lines 280-373) -/

/-- Embedding of `ranges_to_gamma_estimates(G, ranges)` (source lines
280-286); the same graph object is passed to every `gamma_estimate` call, so
its possible mutation is threaded through the list. -/
noncomputable def ranges_to_gamma_estimates (G : Graph)
    (ranges : List (ℝ × ℝ × List ℕ)) :
    Except String (Graph × List (ℝ × ℝ × List ℕ × Option ℝ)) :=
  match ranges with
  | [] => .ok (G, [])
  | (gamma_start, gamma_end, part) :: rest => do
    let (G', est) ← gamma_estimate G part
    let (G'', l) ← ranges_to_gamma_estimates G' rest
    return (G'', (gamma_start, gamma_end, part, est) :: l)

open Classical in
/-- Embedding of `gamma_estimates_to_stable_partitions(gamma_estimates)`
(source lines 289-294): keeps the membership of every entry whose gamma
estimate is not `None` and lies between the range bounds of the entry itself. -/
noncomputable def gamma_estimates_to_stable_partitions
    (gamma_estimates : List (ℝ × ℝ × List ℕ × Option ℝ)) : List (List ℕ) :=
  gamma_estimates.filterMap fun entry =>
    match entry.2.2.2 with
    | none => none
    | some g => if entry.1 ≤ g ∧ g ≤ entry.2.1 then some entry.2.2.1 else none

/-- The candidate set built by the first half of
`prune_to_stable_partitions`: the Python set
`{sorted_tuple(part) for part in parts}` (embedded as a deduplicated list of
canonical membership vectors), filtered to the requested community count when
`restrict_num_communities` is not `None`. -/
def candidate_set (parts : List (List ℕ)) ( restrict_num_communities : Option ℕ) :
    List (List ℕ) :=
  let parts1 := (parts.map sorted_tuple).dedup
  match restrict_num_communities with
  | none => parts1
  | some r => parts1.filter fun part => num_communities part == r

/-- Embedding of `prune_to_stable_partitions(G, parts, gamma_start, gamma_end, restrict_num_communities)`
(source lines 347-373) for a collection of membership vectors.  The external
range finder `CHAMP_2D` is out of scope and passed as a function argument;
the Python set of canonical membership tuples is embedded as a deduplicated
list. -/
noncomputable def prune_to_stable_partitions
    (champ : List (List ℕ) → ℝ → ℝ → List (ℝ × ℝ × List ℕ))
    (G : Graph) (parts : List (List ℕ)) (gamma_start gamma_end : ℝ)
    ( restrict_num_communities : Option ℕ) : Except String (List (List ℕ)) :=
  let parts2 := candidate_set parts restrict_num_communities
  if parts2.length = 0 then .ok []
  else do
    let ranges := champ parts2 gamma_start gamma_end
    let (_, gamma_estimates) ← ranges_to_gamma_estimates G ranges
    return gamma_estimates_to_stable_partitions gamma_estimates

/-- An entry of a `domains_with_estimates` list: the dominance polygon, the
membership, and the (gamma, omega) estimate. -/
structure DomainEst where
  polyverts : List (ℝ × ℝ)
  membership : List ℕ
  gamma_est : Option ℝ
  omega_est : Option ℝ

/-- Embedding of the local sign test `left_or_right(x1, y1, x2, y2, x, y)`
of `gamma_omega_estimates_to_stable_partitions` (source lines 316-318). -/
def left_or_right (x1 y1 x2 y2 x y : ℝ) : Prop :=
  (x - x1) * (y2 - y1) - (y - y1) * (x2 - x1) ≥ 0

open Classical in
/-- The oriented polygon edge list of
`gamma_omega_estimates_to_stable_partitions`: consecutive vertex pairs
(wrapping), with the endpoints swapped whenever the sign test applied to the
centroid (the mean of the vertices) holds. -/
noncomputable def polygon_edges (polyverts : List (ℝ × ℝ)) :
    List ((ℝ × ℝ) × (ℝ × ℝ)) :=
  let centroid_x := (polyverts.map Prod.fst).sum / polyverts.length
  let centroid_y := (polyverts.map Prod.snd).sum / polyverts.length
  (List.range polyverts.length).map fun i =>
    let p1 := polyverts.getD i (0, 0)
    let p2 := polyverts.getD ((i + 1) % polyverts.length) (0, 0)
    if left_or_right p1.1 p1.2 p2.1 p2.2 centroid_x centroid_y then (p2, p1)
    else (p1, p2)

open Classical in
/-- One iteration of the loop of
`gamma_omega_estimates_to_stable_partitions` (source lines 322-342):
entries with a `None` gamma or omega estimate are skipped; otherwise the
entry is appended exactly when the sign test against the estimate point
agrees (all true or all false) across the oriented edges. -/
noncomputable def stable_step (acc : List DomainEst) (d : DomainEst) : List DomainEst :=
  match d.gamma_est, d.omega_est with
  | some g, some w =>
    let lors := (polygon_edges d.polyverts).map fun e =>
      decide (left_or_right e.1.1 e.1.2 e.2.1 e.2.2 g w)
    if lors.all (fun b => b) || lors.all (fun b => !b) then acc ++ [d] else acc
  | _, _ => acc

/-- Embedding of
`gamma_omega_estimates_to_stable_partitions(domains_with_estimates)`
(source lines 310-344). -/
noncomputable def gamma_omega_estimates_to_stable_partitions
    (domains_with_estimates : List DomainEst) : List DomainEst :=
  domains_with_estimates.foldl stable_step []

/-- Embedding of
`domains_to_gamma_omega_estimates(G_intralayer, G_interlayer, layer_vec, domains, model)`
(source lines 297-307), threading the shared intralayer graph through the
loop of `gamma_omega_estimate` calls (defaults `omega_max=1000` and
`N=T=Nt=m_t=None` as in the source). -/
noncomputable def domains_to_gamma_omega_estimates (fsolve : (ℚ → ℚ) → ℚ → ℚ)
    (G_intralayer G_interlayer : Graph) (layer_vec : List ℕ)
    (domains : List (List (ℝ × ℝ) × List ℕ)) (model : PyStr) :
    Except String (Graph × List DomainEst) :=
  match domains with
  | [] => .ok (G_intralayer, [])
  | (polyverts, membership) :: rest => do
    let (G', gamma_est, omega_est) ← gamma_omega_estimate fsolve G_intralayer
      G_interlayer layer_vec membership 1000 model none none none none
    let (G'', l) ← domains_to_gamma_omega_estimates fsolve G' G_interlayer layer_vec
      rest model
    return (G'', ⟨polyverts, membership, gamma_est, omega_est⟩ :: l)

/-! ### Spec-side quantities for the single-layer estimator (spec section 4.1) -/

/-- The per-community weighted degree of the spec: the total weight of edges
touching community `r`, with both endpoints counted when both touch `r`. -/
def spec_kappa (G : Graph) (community : List ℕ) (r : ℕ) : ℚ :=
  (G.weightedEdges.map fun ew =>
    (if community.getD ew.1.1 0 = r then ew.2 else 0) +
    (if community.getD ew.1.2 0 = r then ew.2 else 0)).sum

/-- The `m_in` of the spec: the total weight of edges whose endpoints share a
community. -/
def spec_m_in (G : Graph) (community : List ℕ) : ℚ :=
  ((G.weightedEdges.filter fun ew =>
    community.getD ew.1.1 0 == community.getD ew.1.2 0).map (·.2)).sum

/-! ### Helper lemmas about the accumulation loops -/

theorem getD_set_add (ks : List ℚ) (i j : ℕ) (w : ℚ) (hi : i < ks.length) :
    (ks.set i (ks.getD i 0 + w)).getD j 0 = ks.getD j 0 + if i = j then w else 0 := by
  rcases eq_or_ne i j with rfl | hij
  · simp [List.getD_eq_getElem?_getD, List.getElem?_set_self hi]
  · simp [List.getD_eq_getElem?_getD, List.getElem?_set_ne hij, hij]

theorem getD_replicate_zero (K r : ℕ) : (List.replicate K (0 : ℚ)).getD r 0 = 0 := by
  rw [List.getD_eq_getElem?_getD, List.getElem?_replicate]
  split <;> rfl

theorem kappa_step_length (community : List ℕ) (ks : List ℚ) (ew : (ℕ × ℕ) × ℚ) :
    (kappa_step community ks ew).length = ks.length := by
  simp [kappa_step]

theorem kappa_step_getD (community : List ℕ) (ks : List ℚ) (ew : (ℕ × ℕ) × ℚ) (r : ℕ)
    (hs : community.getD ew.1.1 0 < ks.length)
    (ht : community.getD ew.1.2 0 < ks.length) :
    (kappa_step community ks ew).getD r 0 =
      ks.getD r 0 + ((if community.getD ew.1.1 0 = r then ew.2 else 0) +
        (if community.getD ew.1.2 0 = r then ew.2 else 0)) := by
  unfold kappa_step
  rw [getD_set_add _ _ _ _ (by simpa using ht), getD_set_add _ _ _ _ hs, add_assoc]

theorem kappa_foldl_length (community : List ℕ) (l : List ((ℕ × ℕ) × ℚ)) :
    ∀ init : List ℚ, (l.foldl (kappa_step community) init).length = init.length := by
  induction l with
  | nil => intro init; rfl
  | cons ew tl ih => intro init; rw [List.foldl_cons, ih, kappa_step_length]

theorem kappa_foldl_getD (community : List ℕ) (l : List ((ℕ × ℕ) × ℚ)) :
    ∀ (init : List ℚ) (r : ℕ),
      (∀ ew ∈ l, community.getD ew.1.1 0 < init.length ∧
        community.getD ew.1.2 0 < init.length) →
      (l.foldl (kappa_step community) init).getD r 0 =
        init.getD r 0 + (l.map fun ew =>
          (if community.getD ew.1.1 0 = r then ew.2 else 0) +
          (if community.getD ew.1.2 0 = r then ew.2 else 0)).sum := by
  induction l with
  | nil => intro init r _; simp
  | cons ew tl ih =>
    intro init r hb
    have hs := (hb ew (List.mem_cons_self ew tl)).1
    have ht := (hb ew (List.mem_cons_self ew tl)).2
    rw [List.foldl_cons,
      ih _ r (fun e he => by
        rw [kappa_step_length]
        exact hb e (List.mem_cons_of_mem _ he)),
      kappa_step_getD _ _ _ _ hs ht, List.map_cons, List.sum_cons, add_assoc]

theorem kappa_r_list_getD (G : Graph) (K : ℕ) (community : List ℕ) (r : ℕ)
    (hb : ∀ ew ∈ G.weightedEdges, community.getD ew.1.1 0 < K ∧
      community.getD ew.1.2 0 < K) :
    (kappa_r_list G K community).getD r 0 = spec_kappa G community r := by
  unfold kappa_r_list spec_kappa
  rw [kappa_foldl_getD _ _ _ _ (by simpa using hb), getD_replicate_zero, zero_add]

theorem map_sq_sum_eq_range (l : List ℚ) :
    (l.map fun x => x ^ 2).sum = ∑ r in Finset.range l.length, l.getD r 0 ^ 2 := by
  induction l with
  | nil => simp
  | cons a tl ih =>
    rw [List.map_cons, List.sum_cons, ih, List.length_cons, Finset.sum_range_succ']
    simp [add_comm]

theorem sum_kappa_sqr_eq (G : Graph) (K : ℕ) (community : List ℕ)
    (hb : ∀ ew ∈ G.weightedEdges, community.getD ew.1.1 0 < K ∧
      community.getD ew.1.2 0 < K) :
    sum_kappa_sqr G K community = ∑ r in Finset.range K, spec_kappa G community r ^ 2 := by
  unfold sum_kappa_sqr
  rw [map_sq_sum_eq_range]
  have hlen : (kappa_r_list G K community).length = K := by
    unfold kappa_r_list
    rw [kappa_foldl_length, List.length_replicate]
  rw [hlen]
  exact Finset.sum_congr rfl fun r _ => by rw [kappa_r_list_getD G K community r hb]

theorem indicator_sum_eq_filter_sum (community : List ℕ) (l : List ((ℕ × ℕ) × ℚ)) :
    (l.map fun ew =>
      if community.getD ew.1.1 0 = community.getD ew.1.2 0 then ew.2 else 0).sum =
    ((l.filter fun ew =>
      community.getD ew.1.1 0 == community.getD ew.1.2 0).map (·.2)).sum := by
  induction l with
  | nil => rfl
  | cons ew tl ih =>
    rw [List.map_cons, List.sum_cons, List.filter_cons, ih]
    by_cases h : community.getD ew.1.1 0 = community.getD ew.1.2 0
    · rw [if_pos h, if_pos (by simpa using h), List.map_cons, List.sum_cons]
    · rw [if_neg h, if_neg (by simpa using h), zero_add]

theorem m_in_eq_spec (G : Graph) (community : List ℕ) :
    m_in G community = spec_m_in G community := by
  unfold m_in spec_m_in
  exact indicator_sum_eq_filter_sum community G.weightedEdges

/-- C4: for a weighted graph with total edge weight `m > 0` and a partition
with `K ≥ 1` communities (membership labels in `[0, K)` on edge endpoints, as
produced by a louvain partition), `estimate_singlelayer_SBM_parameters`
returns `omega_in = 2 m_in / (Σ_r κ_r² / (2m))` and
`omega_out = (2m − 2 m_in) / (2m − Σ_r κ_r² / (2m))`, with `κ_r` the
per-community weighted degree counting both endpoints and `omega_out = 0`
when `K = 1`. -/
theorem estimate_singlelayer_SBM_parameters_spec (G : Graph) (partition : Partition)
    (hK : 1 ≤ partition.K)
    (hmem : ∀ ew ∈ G.weightedEdges,
      partition.membership.getD ew.1.1 0 < partition.K ∧
      partition.membership.getD ew.1.2 0 < partition.K)
    (_hm : 0 < total_weight G) :
    estimate_singlelayer_SBM_parameters G partition =
      (2 * spec_m_in G partition.membership /
        ((∑ r in Finset.range partition.K, spec_kappa G partition.membership r ^ 2) /
          (2 * total_weight G)),
       if partition.K = 1 then 0
       else (2 * total_weight G - 2 * spec_m_in G partition.membership) /
         (2 * total_weight G -
           (∑ r in Finset.range partition.K, spec_kappa G partition.membership r ^ 2) /
             (2 * total_weight G))) := by
  simp only [estimate_singlelayer_SBM_parameters]
  rw [m_in_eq_spec, sum_kappa_sqr_eq G partition.K partition.membership hmem]
  rcases eq_or_ne partition.K 1 with h1 | h1
  · rw [if_neg (by omega), if_pos h1]
  · rw [if_pos (by omega), if_neg h1]

/-- Witness for C4 on the weighted triangle graph with the two-community
partition `[0, 0, 1]`. -/
theorem estimate_singlelayer_SBM_parameters_spec_witness :
    (1 ≤ (2 : ℕ)) ∧
    (0 < total_weight ⟨3, [(0, 1), (1, 2), (0, 2)], some [1, 1, 1]⟩) ∧
    estimate_singlelayer_SBM_parameters ⟨3, [(0, 1), (1, 2), (0, 2)], some [1, 1, 1]⟩
        ⟨2, [0, 0, 1]⟩ =
      (2 * spec_m_in ⟨3, [(0, 1), (1, 2), (0, 2)], some [1, 1, 1]⟩ [0, 0, 1] /
        ((∑ r in Finset.range 2,
          spec_kappa ⟨3, [(0, 1), (1, 2), (0, 2)], some [1, 1, 1]⟩ [0, 0, 1] r ^ 2) /
          (2 * total_weight ⟨3, [(0, 1), (1, 2), (0, 2)], some [1, 1, 1]⟩)),
       if (2 : ℕ) = 1 then 0
       else (2 * total_weight ⟨3, [(0, 1), (1, 2), (0, 2)], some [1, 1, 1]⟩ -
          2 * spec_m_in ⟨3, [(0, 1), (1, 2), (0, 2)], some [1, 1, 1]⟩ [0, 0, 1]) /
         (2 * total_weight ⟨3, [(0, 1), (1, 2), (0, 2)], some [1, 1, 1]⟩ -
           (∑ r in Finset.range 2,
             spec_kappa ⟨3, [(0, 1), (1, 2), (0, 2)], some [1, 1, 1]⟩ [0, 0, 1] r ^ 2) /
             (2 * total_weight ⟨3, [(0, 1), (1, 2), (0, 2)], some [1, 1, 1]⟩))) :=
  ⟨by decide, by norm_num [total_weight, Graph.weightedEdges],
    estimate_singlelayer_SBM_parameters_spec ⟨3, [(0, 1), (1, 2), (0, 2)], some [1, 1, 1]⟩
      ⟨2, [0, 0, 1]⟩ (by decide) (by decide)
      (by norm_num [total_weight, Graph.weightedEdges])⟩

/-! ### Small reduction lemmas for `Except` binds -/

theorem except_bind_ok {α β : Type} (a : α) (f : α → Except String β) :
    (Except.ok a : Except String α) >>= f = f a := rfl

theorem except_bind_error {α β : Type} (e : String) (f : α → Except String β) :
    (Except.error e : Except String α) >>= f = .error e := rfl

theorem pyDiv_of_ne (x y : ℝ) (h : y ≠ 0) : pyDiv x y = .ok (x / y) := by
  unfold pyDiv
  rw [if_neg h]

/-- C5: `gamma_estimate_from_parameters` returns the `None` sentinel (not an
exception) whenever either omega parameter is zero — in particular for a
single-community partition, whose `omega_out` is 0 by the `K == 1`
convention — and otherwise returns
`(omega_in − omega_out) / (ln omega_in − ln omega_out)`. -/
theorem gamma_estimate_from_parameters_spec (omega_in omega_out : ℚ) :
    (omega_in = 0 ∨ omega_out = 0 →
      gamma_estimate_from_parameters omega_in omega_out = none) ∧
    (omega_in ≠ 0 → omega_out ≠ 0 →
      gamma_estimate_from_parameters omega_in omega_out =
        some (((omega_in : ℝ) - (omega_out : ℝ)) /
          (Real.log (omega_in : ℝ) - Real.log (omega_out : ℝ)))) ∧
    (∀ (G : Graph) (partition : Partition), partition.K = 1 →
      (estimate_singlelayer_SBM_parameters G partition).2 = 0 ∧
      gamma_estimate_from_parameters
        (estimate_singlelayer_SBM_parameters G partition).1
        (estimate_singlelayer_SBM_parameters G partition).2 = none) := by
  refine ⟨fun h => by simp [gamma_estimate_from_parameters, h],
    fun h1 h2 => by simp [gamma_estimate_from_parameters, h1, h2],
    fun G partition hK => ?_⟩
  have h2 : (estimate_singlelayer_SBM_parameters G partition).2 = 0 := by
    simp [estimate_singlelayer_SBM_parameters, hK]
  exact ⟨h2, by simp [gamma_estimate_from_parameters, h2]⟩

/-- Witness for C5: the zero case, the generic case, and the
single-community case on the weighted triangle graph. -/
theorem gamma_estimate_from_parameters_spec_witness :
    gamma_estimate_from_parameters 0 5 = none ∧
    gamma_estimate_from_parameters 2 3 =
      some ((((2 : ℚ) : ℝ) - ((3 : ℚ) : ℝ)) /
        (Real.log ((2 : ℚ) : ℝ) - Real.log ((3 : ℚ) : ℝ))) ∧
    (estimate_singlelayer_SBM_parameters ⟨3, [(0, 1), (1, 2), (0, 2)], some [1, 1, 1]⟩
      ⟨1, [0, 0, 0]⟩).2 = 0 :=
  ⟨(gamma_estimate_from_parameters_spec 0 5).1 (Or.inl rfl),
   (gamma_estimate_from_parameters_spec 2 3).2.1 (by norm_num) (by norm_num),
   ((gamma_estimate_from_parameters_spec 2 3).2.2
     ⟨3, [(0, 1), (1, 2), (0, 2)], some [1, 1, 1]⟩ ⟨1, [0, 0, 0]⟩ rfl).1⟩

/-- C1 (code-bug evaluation): the omega dispatch rejects the documented tag
`multilevel` — its second branch tests the literal `multilayer` instead —
even though its own error message and the persistence dispatch treat
`multilevel` as valid; conversely it accepts the undocumented tag
`multilayer`. -/
theorem omega_dispatch_rejects_multilevel :
    omega_function_from_model ⟨"multilevel", true⟩ 1000 3 =
      .error "ValueError: model is not temporal, multilevel, or multiplex" ∧
    (∃ f, omega_function_from_model ⟨"multilayer", true⟩ 1000 3 = .ok f) ∧
    (∃ g, persistence_function_from_model ⟨"multilevel", true⟩ ⟨4, [(0, 2), (1, 3)], none⟩
      (some [0, 0, 1, 1]) (some 2) (some 2) (some [2, 2]) = .ok g) :=
  ⟨rfl, ⟨_, rfl⟩, ⟨_, rfl⟩⟩

/-- C7 (code-bug evaluation): the persistence dispatch compares the topology
tag by identity (`is`), so a non-interned string equal by value to
`multiplex` falls through to the unknown-model error while the interned
literal selects the multiplex branch. -/
theorem persistence_dispatch_identity_sensitive :
    (PyStr.mk "multiplex" false).val = (PyStr.mk "multiplex" true).val ∧
    (∃ g, persistence_function_from_model ⟨"multiplex", true⟩ ⟨4, [(0, 2), (1, 3)], none⟩
      (some [0, 0, 1, 1]) (some 2) (some 2) (some [2, 2]) = .ok g) ∧
    persistence_function_from_model ⟨"multiplex", false⟩ ⟨4, [(0, 2), (1, 3)], none⟩
      (some [0, 0, 1, 1]) (some 2) (some 2) (some [2, 2]) =
      .error "ValueError: model is not temporal, multilevel, or multiplex" :=
  ⟨rfl, ⟨_, rfl⟩, rfl⟩

/-- C2 (code-bug evaluation): on the complete graph K4 (4 vertices, 6
edges), `gamma_estimate` assigns `[1.0] * G.vcount()` — one weight per
vertex, not per edge — which fails the igraph attribute length check with a
`ValueError` instead of defaulting one weight per edge; since the
`"weight" not in G.es` guard is always true, the same failure occurs whether
or not the graph already carries weights.  By contrast the weight defaulting
of `estimate_multilayer_SBM_parameters` uses `ecount` and succeeds on the
same unweighted graph, setting exactly one unit weight per edge (the
two-layer temporal instance below has nonzero per-layer weights, `T = 2` and
`K = 2`, so the corresponding Python run divides only by nonzero
quantities). -/
theorem gamma_estimate_weight_default_fails_on_K4 :
    gamma_estimate ⟨4, [(0, 1), (0, 2), (0, 3), (1, 2), (1, 3), (2, 3)], none⟩
        [0, 0, 1, 1] =
      .error "ValueError: edge attribute value length does not match edge count" ∧
    gamma_estimate ⟨4, [(0, 1), (0, 2), (0, 3), (1, 2), (1, 3), (2, 3)],
        some [1, 1, 1, 1, 1, 1]⟩ [0, 0, 1, 1] =
      .error "ValueError: edge attribute value length does not match edge count" ∧
    ((estimate_multilayer_SBM_parameters (fun _ x => x)
        ⟨4, [(0, 1), (0, 2), (0, 3), (1, 2), (1, 3), (2, 3)], none⟩
        ⟨4, [(0, 2), (1, 3)], none⟩ [0, 0, 1, 1] ⟨2, [0, 0, 1, 1]⟩ ⟨"temporal", true⟩
        none none none none).map fun r => r.1.weights) =
      .ok (some [1, 1, 1, 1, 1, 1]) :=
  ⟨rfl, rfl, rfl⟩

/-- C9 counterexample: `gamma_estimate` on an unweighted triangle graph
writes the defaulted weight attribute into the graph owned by the caller — the returned
graph carries `weight = [1.0, 1.0, 1.0]` although the input graph had no
weight attribute — so the call is not pure on its graph argument. -/
theorem gamma_estimate_mutates_unweighted_graph :
    ((gamma_estimate ⟨3, [(0, 1), (1, 2), (0, 2)], none⟩ [0, 0, 1]).map
      fun r => r.1.weights) = .ok (some [1, 1, 1]) ∧
    (Graph.mk 3 [(0, 1), (1, 2), (0, 2)] none).weights = none :=
  ⟨rfl, rfl⟩

/-- C8 counterexample: with `omega_in = omega_out = 2` the gamma estimator
passes its zero guard yet its division is the numpy `0.0 / 0.0`, i.e. NaN
(there is no `ln omega_in − ln omega_out == 0` guard); and at
`theta_in = 1`, `theta_out = 0`, `p = 1/2` the temporal/multilevel omega
estimator divides by `2 * log(1) = 0` and raises `ZeroDivisionError` (unlike
the multiplex variant it has no `theta_in == 1` guard). -/
theorem estimator_nan_and_zero_division_counterexample :
    gamma_estimate_from_parameters_np 2 2 = .nan ∧
    temporal_multilevel_omega_estimate_checked 1 0 (1 / 2) 2 1000 =
      .error "ZeroDivisionError" := by
  constructor
  · unfold gamma_estimate_from_parameters_np
    rw [if_neg (by norm_num), if_pos (by simp)]
  · unfold temporal_multilevel_omega_estimate_checked
    rw [if_pos rfl, if_pos (by norm_num)]
    rw [pyDiv_of_ne _ _ (by norm_num), except_bind_ok]
    unfold pyDiv
    rw [if_pos (by norm_num)]

/-- C8 (amended): the guards that are present short-circuit to the
documented sentinels, and away from the two unguarded degeneracies the two
estimators produce ordinary numbers: for positive `omega_in ≠ omega_out` the
gamma estimator returns a number (neither NaN nor None), and for
`0 < theta_in ≠ 1` with `theta_out` zero or positive and distinct from
`theta_in`, every division of the temporal/multilevel omega estimator has a
nonzero divisor, so it returns a value and never raises. -/
theorem estimator_guard_amended :
    (∀ omega_in omega_out : ℚ, 0 < omega_in → 0 < omega_out → omega_in ≠ omega_out →
      gamma_estimate_from_parameters_np omega_in omega_out =
        .num (((omega_in : ℝ) - (omega_out : ℝ)) /
          (Real.log (omega_in : ℝ) - Real.log (omega_out : ℝ)))) ∧
    (∀ (theta_in theta_out p : ℚ) (K : ℕ) (omega_max : ℝ),
      0 < theta_in → theta_in ≠ 1 → 0 ≤ theta_out → theta_out ≠ theta_in →
      ∃ v, temporal_multilevel_omega_estimate_checked theta_in theta_out p K omega_max =
        .ok v) := by
  constructor
  · intro a b ha hb hne
    unfold gamma_estimate_from_parameters_np
    rw [if_neg (by rintro (rfl | rfl); exacts [lt_irrefl 0 ha, lt_irrefl 0 hb]),
      if_neg (by
        rintro ⟨-, hsub⟩
        exact hne (by exact_mod_cast sub_eq_zero.mp hsub))]
  · intro ti tho p K om hti htine hto htone
    have hlog : Real.log (ti : ℝ) ≠ 0 :=
      Real.log_ne_zero_of_pos_of_ne_one (by exact_mod_cast hti)
        (by exact_mod_cast htine)
    unfold temporal_multilevel_omega_estimate_checked
    rcases eq_or_ne tho 0 with h0 | h0
    · rw [if_pos (by exact_mod_cast h0)]
      by_cases hp : p < 1
      · rw [if_pos hp,
          pyDiv_of_ne _ _ (sub_ne_zero.mpr fun h => absurd (by exact_mod_cast h.symm) hp.ne),
          except_bind_ok,
          pyDiv_of_ne _ _ (mul_ne_zero two_ne_zero hlog)]
        exact ⟨_, rfl⟩
      · rw [if_neg hp]
        exact ⟨_, rfl⟩
    · rw [if_neg h0]
      have htopos : (0 : ℚ) < tho := lt_of_le_of_ne hto (Ne.symm h0)
      have hlogne : Real.log (ti : ℝ) - Real.log (tho : ℝ) ≠ 0 := by
        refine sub_ne_zero.mpr fun h => htone ?_
        have := Real.log_injOn_pos (Set.mem_Ioi.mpr (by exact_mod_cast hti))
          (Set.mem_Ioi.mpr (by exact_mod_cast htopos)) h
        exact_mod_cast this.symm
      by_cases hp : p < 1
      · rw [if_pos hp,
          pyDiv_of_ne _ _ (sub_ne_zero.mpr fun h => absurd (by exact_mod_cast h.symm) hp.ne),
          except_bind_ok,
          pyDiv_of_ne _ _ (mul_ne_zero two_ne_zero hlogne)]
        exact ⟨_, rfl⟩
      · rw [if_neg hp]
        exact ⟨_, rfl⟩

/-- Witness for the amended C8 at `omega_in = 2, omega_out = 3` and
`theta_in = 2, theta_out = 0, p = 1/2, K = 3`. -/
theorem estimator_guard_amended_witness :
    gamma_estimate_from_parameters_np 2 3 =
      .num ((((2 : ℚ) : ℝ) - ((3 : ℚ) : ℝ)) /
        (Real.log ((2 : ℚ) : ℝ) - Real.log ((3 : ℚ) : ℝ))) ∧
    ∃ v, temporal_multilevel_omega_estimate_checked 2 0 (1 / 2) 3 1000 = .ok v :=
  ⟨estimator_guard_amended.1 2 3 (by norm_num) (by norm_num) (by norm_num),
   estimator_guard_amended.2 2 0 (1 / 2) 3 1000 (by norm_num) (by norm_num)
     le_rfl (by norm_num)⟩

/-! ### The frame effect of the estimators on their graph argument -/

/-- Holds when an estimator result returns exactly the given graph (error
results carry no graph and are vacuously fine). -/
def returnsGraph {α : Type} : Except String (Graph × α) → Graph → Prop
  | .ok (g, _), G => g = G
  | .error _, _ => True

theorem unit_weighted_idem (G : Graph) : unit_weighted (unit_weighted G) = unit_weighted G :=
  rfl

theorem unit_weighted_vcount (G : Graph) : (unit_weighted G).vcount = G.vcount := rfl

theorem unit_weighted_ecount (G : Graph) : (unit_weighted G).ecount = G.ecount := rfl

theorem gamma_estimate_total (G : Graph) (membership : List ℕ)
    (h : G.vcount = G.ecount) :
    gamma_estimate G membership =
      .ok (unit_weighted G, gamma_estimate_value (unit_weighted G) membership) := by
  unfold gamma_estimate setEdgeWeights
  rw [if_pos (by simpa [Graph.ecount] using h)]
  rfl

theorem gamma_estimate_length_error (G : Graph) (membership : List ℕ)
    (h : G.vcount ≠ G.ecount) :
    gamma_estimate G membership =
      .error "ValueError: edge attribute value length does not match edge count" := by
  unfold gamma_estimate setEdgeWeights
  rw [if_neg (by simpa [Graph.ecount] using h)]
  rfl

theorem returnsGraph_bind_pure {β : Type} (G : Graph) (e : Except String β)
    (f : β → ℚ × ℚ × ℚ × ℕ) :
    returnsGraph (e >>= fun b => pure (G, f b)) G := by
  cases e with
  | error msg => exact trivial
  | ok b => exact rfl

theorem estimate_multilayer_overwrites (fsolve : (ℚ → ℚ) → ℚ → ℚ)
    (G_intralayer G_interlayer : Graph) (layer_vec : List ℕ) (partition : Partition)
    (model : PyStr) (N T : Option ℕ) (Nt : Option (List ℕ)) (m_t : Option (List ℚ)) :
    returnsGraph (estimate_multilayer_SBM_parameters fsolve G_intralayer G_interlayer
      layer_vec partition model N T Nt m_t)
      { G_intralayer with weights := some (List.replicate G_intralayer.ecount 1) } := by
  unfold estimate_multilayer_SBM_parameters setEdgeWeights
  rw [if_pos (by simp [Graph.ecount])]
  exact returnsGraph_bind_pure _ _ _

/-- C9 (amended): the estimators never modify the partition membership, and
`estimate_singlelayer_SBM_parameters` only reads its graph; but the
`"weight" not in G.es` guard is always true, so `gamma_estimate` and
`estimate_multilayer_SBM_parameters` write the weight attribute into the
graph owned by the caller on every call: the multilayer estimator overwrites
the intralayer weights with one unit weight per edge whenever it returns,
and `gamma_estimate` overwrites them with `[1.0] * vcount` when the vertex
and edge counts agree — even when weights were already present — and raises
a `ValueError` otherwise. -/
theorem estimators_always_write_weights :
    (∀ (G : Graph) (membership : List ℕ), G.vcount = G.ecount →
      gamma_estimate G membership =
        .ok (unit_weighted G, gamma_estimate_value (unit_weighted G) membership)) ∧
    (∀ (G : Graph) (membership : List ℕ), G.vcount ≠ G.ecount →
      gamma_estimate G membership =
        .error "ValueError: edge attribute value length does not match edge count") ∧
    (∀ (fsolve : (ℚ → ℚ) → ℚ → ℚ) (G_intralayer G_interlayer : Graph)
      (layer_vec : List ℕ) (partition : Partition) (model : PyStr)
      (N T : Option ℕ) (Nt : Option (List ℕ)) (m_t : Option (List ℚ)),
      returnsGraph (estimate_multilayer_SBM_parameters fsolve G_intralayer
        G_interlayer layer_vec partition model N T Nt m_t)
        { G_intralayer with weights := some (List.replicate G_intralayer.ecount 1) }) :=
  ⟨gamma_estimate_total, gamma_estimate_length_error,
   fun fsolve G1 G2 lv partition model N T Nt m_t =>
     estimate_multilayer_overwrites fsolve G1 G2 lv partition model N T Nt m_t⟩

/-- Witness for the amended C9: the weighted triangle graph has its weights
overwritten with 1.0 by `gamma_estimate`, the path graph (3 vertices, 2
edges) makes it raise, and the multilayer estimator overwrites the weighted
triangle with one unit weight per edge. -/
theorem estimators_always_write_weights_witness :
    (Graph.mk 3 [(0, 1), (1, 2), (0, 2)] (some [2, 2, 2])).vcount =
      (Graph.mk 3 [(0, 1), (1, 2), (0, 2)] (some [2, 2, 2])).ecount ∧
    gamma_estimate ⟨3, [(0, 1), (1, 2), (0, 2)], some [2, 2, 2]⟩ [0, 0, 1] =
      .ok (unit_weighted ⟨3, [(0, 1), (1, 2), (0, 2)], some [2, 2, 2]⟩,
        gamma_estimate_value (unit_weighted ⟨3, [(0, 1), (1, 2), (0, 2)], some [2, 2, 2]⟩)
          [0, 0, 1]) ∧
    (Graph.mk 3 [(0, 1), (1, 2)] none).vcount ≠ (Graph.mk 3 [(0, 1), (1, 2)] none).ecount ∧
    gamma_estimate ⟨3, [(0, 1), (1, 2)], none⟩ [0, 0, 1] =
      .error "ValueError: edge attribute value length does not match edge count" ∧
    returnsGraph (estimate_multilayer_SBM_parameters (fun _ x => x)
      ⟨3, [(0, 1), (1, 2), (0, 2)], some [2, 2, 2]⟩ ⟨3, [], none⟩ [0, 0, 0]
      ⟨2, [0, 0, 1]⟩ ⟨"temporal", true⟩ none none none none)
      { Graph.mk 3 [(0, 1), (1, 2), (0, 2)] (some [2, 2, 2]) with
          weights := some (List.replicate
            (Graph.mk 3 [(0, 1), (1, 2), (0, 2)] (some [2, 2, 2])).ecount 1) } :=
  ⟨rfl, estimators_always_write_weights.1 _ _ rfl,
   by decide, estimators_always_write_weights.2.1 _ [0, 0, 1] (by decide),
   estimators_always_write_weights.2.2 (fun _ x => x) _ ⟨3, [], none⟩ [0, 0, 0]
     ⟨2, [0, 0, 1]⟩ ⟨"temporal", true⟩ none none none none⟩

/-! ### The single-layer pruning pipeline -/

theorem ranges_to_gamma_estimates_over_unit (G0 : Graph) :
    ∀ (ranges : List (ℝ × ℝ × List ℕ)) (H : Graph),
      unit_weighted H = unit_weighted G0 → H.vcount = H.ecount →
      ∃ Gfin, ranges_to_gamma_estimates H ranges =
        .ok (Gfin, ranges.map fun r =>
          (r.1, r.2.1, r.2.2, gamma_estimate_value (unit_weighted G0) r.2.2)) := by
  intro ranges
  induction ranges with
  | nil => intro H _ _; exact ⟨H, rfl⟩
  | cons r rest ih =>
    intro H hH hvc
    obtain ⟨gamma_start, gamma_end, part⟩ := r
    have hvc2 : (unit_weighted H).vcount = (unit_weighted H).ecount := hvc
    obtain ⟨Gfin, hrest⟩ := ih (unit_weighted H) (by rw [unit_weighted_idem, hH]) hvc2
    rw [hH] at hrest
    refine ⟨Gfin, ?_⟩
    simp only [ranges_to_gamma_estimates, gamma_estimate_total H part hvc,
      except_bind_ok, hH, hrest, List.map_cons]
    rfl

/-- C3 counterexample: on the path graph (3 vertices, 2 edges) with one
candidate partition, `prune_to_stable_partitions` raises the igraph
`ValueError` from the always-run `[1.0] * G.vcount()` weight assignment
inside `gamma_estimate`, instead of returning the set of surviving
candidates; and on a weighted triangle, the gamma estimate the pipeline uses
is computed only after every edge weight has been overwritten with 1.0, as
the graph returned by `gamma_estimate` shows. -/
theorem prune_to_stable_partitions_counterexample :
    prune_to_stable_partitions (fun _ _ _ => [(0, 2, [0, 0, 1])])
        ⟨3, [(0, 1), (1, 2)], none⟩ [[0, 0, 1]] 0 2 none =
      .error "ValueError: edge attribute value length does not match edge count" ∧
    ((gamma_estimate ⟨3, [(0, 1), (1, 2), (0, 2)], some [2, 2, 2]⟩ [0, 0, 1]).map
      fun r => r.1.weights) = .ok (some [1, 1, 1]) :=
  ⟨rfl, rfl⟩

open Classical in
/-- C3 (amended): `prune_to_stable_partitions` deduplicates the candidates
by their canonical membership representation and filters by community count
when requested; if no candidates remain it returns the empty set without
invoking the external range finder (the result does not depend on it).
Otherwise, on graphs whose vertex count equals their edge count (so that the
always-run weight-defaulting assignment inside `gamma_estimate` is
length-valid), it returns exactly the candidates delivered by the range
finder whose gamma estimate — computed by `gamma_estimate`, i.e. after every
edge weight has been overwritten with 1.0 — is not `None` and lies within
their own dominance interval; when the vertex and edge counts differ the
pipeline raises a `ValueError` instead as soon as an estimate is
computed. -/
theorem prune_to_stable_partitions_spec :
    (∀ (champ1 champ2 : List (List ℕ) → ℝ → ℝ → List (ℝ × ℝ × List ℕ)) (G : Graph)
      (parts : List (List ℕ)) (gamma_start gamma_end : ℝ) (rnc : Option ℕ),
      candidate_set parts rnc = [] →
      prune_to_stable_partitions champ1 G parts gamma_start gamma_end rnc = .ok [] ∧
      prune_to_stable_partitions champ1 G parts gamma_start gamma_end rnc =
        prune_to_stable_partitions champ2 G parts gamma_start gamma_end rnc) ∧
    (∀ (champ : List (List ℕ) → ℝ → ℝ → List (ℝ × ℝ × List ℕ)) (G : Graph)
      (parts : List (List ℕ)) (gamma_start gamma_end : ℝ) (rnc : Option ℕ),
      G.vcount = G.ecount →
      candidate_set parts rnc ≠ [] →
      prune_to_stable_partitions champ G parts gamma_start gamma_end rnc =
        .ok ((champ (candidate_set parts rnc) gamma_start gamma_end).filterMap fun r =>
          match gamma_estimate_value (unit_weighted G) r.2.2 with
          | none => none
          | some g => if r.1 ≤ g ∧ g ≤ r.2.1 then some r.2.2 else none)) ∧
    (∀ (champ : List (List ℕ) → ℝ → ℝ → List (ℝ × ℝ × List ℕ)) (G : Graph)
      (parts : List (List ℕ)) (gamma_start gamma_end : ℝ) (rnc : Option ℕ),
      G.vcount ≠ G.ecount →
      candidate_set parts rnc ≠ [] →
      champ (candidate_set parts rnc) gamma_start gamma_end ≠ [] →
      prune_to_stable_partitions champ G parts gamma_start gamma_end rnc =
        .error "ValueError: edge attribute value length does not match edge count") := by
  refine ⟨?_, ?_, ?_⟩
  · intro champ1 champ2 G parts gamma_start gamma_end rnc hempty
    constructor <;> simp [prune_to_stable_partitions, hempty]
  · intro champ G parts gamma_start gamma_end rnc hvc hne
    simp only [prune_to_stable_partitions]
    rw [if_neg (by simpa [List.length_eq_zero] using hne)]
    obtain ⟨Gfin, hr⟩ := ranges_to_gamma_estimates_over_unit G
      (champ (candidate_set parts rnc) gamma_start gamma_end) G rfl hvc
    rw [hr, except_bind_ok]
    show Except.ok (gamma_estimates_to_stable_partitions _) = _
    rw [gamma_estimates_to_stable_partitions, List.filterMap_map]
    rfl
  · intro champ G parts gamma_start gamma_end rnc hvc hne hch
    simp only [prune_to_stable_partitions]
    rw [if_neg (by simpa [List.length_eq_zero] using hne)]
    rcases hc : champ (candidate_set parts rnc) gamma_start gamma_end with _ | ⟨r, rest⟩
    · exact absurd hc hch
    · obtain ⟨gamma_start1, gamma_end1, part1⟩ := r
      simp only [ranges_to_gamma_estimates, gamma_estimate_length_error G part1 hvc,
        except_bind_error]

open Classical in
/-- Witness for the amended C3: the empty case with two different range
finders, a nonempty run on the triangle graph (vertex count = edge count),
and the error case on the path graph. -/
theorem prune_to_stable_partitions_spec_witness :
    candidate_set ([] : List (List ℕ)) none = [] ∧
    prune_to_stable_partitions (fun _ _ _ => []) ⟨1, [], none⟩ [] 0 1 none = .ok [] ∧
    prune_to_stable_partitions (fun _ _ _ => []) ⟨1, [], none⟩ [] 0 1 none =
      prune_to_stable_partitions (fun _ _ _ => [(0, 1, [0])]) ⟨1, [], none⟩ [] 0 1 none ∧
    candidate_set [[0, 0, 1]] none ≠ [] ∧
    prune_to_stable_partitions (fun _ _ _ => [(0, 2, [0, 0, 1])])
        ⟨3, [(0, 1), (1, 2), (0, 2)], none⟩ [[0, 0, 1]] 0 2 none =
      .ok ((((fun _ _ _ => [((0 : ℝ), (2 : ℝ), [0, 0, 1])]) :
          List (List ℕ) → ℝ → ℝ → List (ℝ × ℝ × List ℕ))
          (candidate_set [[0, 0, 1]] none) 0 2).filterMap fun r =>
        match gamma_estimate_value (unit_weighted ⟨3, [(0, 1), (1, 2), (0, 2)], none⟩)
          r.2.2 with
        | none => none
        | some g => if r.1 ≤ g ∧ g ≤ r.2.1 then some r.2.2 else none) ∧
    prune_to_stable_partitions (fun _ _ _ => [(0, 2, [0, 1, 2, 3])])
        ⟨4, [(0, 1), (1, 2), (2, 3)], none⟩ [[0, 1, 2, 3]] 0 2 none =
      .error "ValueError: edge attribute value length does not match edge count" := by
  refine ⟨rfl, ?_, ?_, by decide, ?_, ?_⟩
  · exact (prune_to_stable_partitions_spec.1 (fun _ _ _ => []) (fun _ _ _ => [(0, 1, [0])])
      ⟨1, [], none⟩ [] 0 1 none rfl).1
  · exact (prune_to_stable_partitions_spec.1 (fun _ _ _ => []) (fun _ _ _ => [(0, 1, [0])])
      ⟨1, [], none⟩ [] 0 1 none rfl).2
  · exact prune_to_stable_partitions_spec.2.1 (fun _ _ _ => [(0, 2, [0, 0, 1])])
      ⟨3, [(0, 1), (1, 2), (0, 2)], none⟩ [[0, 0, 1]] 0 2 none rfl (by decide)
  · exact prune_to_stable_partitions_spec.2.2 (fun _ _ _ => [(0, 2, [0, 1, 2, 3])])
      ⟨4, [(0, 1), (1, 2), (2, 3)], none⟩ [[0, 1, 2, 3]] 0 2 none (by decide) (by decide)
      (by decide)

/-! ### The multilayer stability filter as a membership predicate -/

/-- The claim-side containment test of the multilayer stability filter: both
estimates are present, and the sign test for the estimate point yields the
same truth value on every centroid-oriented polygon edge (all true or all
false). -/
def estimate_in_domain (d : DomainEst) : Prop :=
  ∃ g w, d.gamma_est = some g ∧ d.omega_est = some w ∧
    ((∀ e ∈ polygon_edges d.polyverts, left_or_right e.1.1 e.1.2 e.2.1 e.2.2 g w) ∨
     (∀ e ∈ polygon_edges d.polyverts, ¬ left_or_right e.1.1 e.1.2 e.2.1 e.2.2 g w))

open Classical in
theorem stable_step_eq (acc : List DomainEst) (d : DomainEst) :
    stable_step acc d = if estimate_in_domain d then acc ++ [d] else acc := by
  rcases hg : d.gamma_est with _ | g
  · rw [if_neg (by rintro ⟨g, w, hg', -⟩; rw [hg] at hg'; exact Option.noConfusion hg')]
    simp [stable_step, hg]
  · rcases ho : d.omega_est with _ | w
    · rw [if_neg (by rintro ⟨g', w', -, hw', -⟩; rw [ho] at hw'; exact Option.noConfusion hw')]
      simp [stable_step, hg, ho]
    · simp only [stable_step, hg, ho]
      refine if_congr ?_ rfl rfl
      simp only [Bool.or_eq_true, List.all_map, List.all_eq_true, List.forall_mem_map,
        Function.comp, decide_eq_true_eq, Bool.not_eq_true', decide_eq_false_iff_not,
        estimate_in_domain, hg, ho, Option.some.injEq]
      constructor
      · rintro (h | h)
        · exact ⟨g, w, rfl, rfl, Or.inl h⟩
        · exact ⟨g, w, rfl, rfl, Or.inr h⟩
      · rintro ⟨g', w', rfl, rfl, h | h⟩
        · exact Or.inl h
        · exact Or.inr h

open Classical in
theorem stable_foldl_eq (l : List DomainEst) :
    ∀ acc : List DomainEst,
      l.foldl stable_step acc = acc ++ l.filter fun d => decide (estimate_in_domain d) := by
  induction l with
  | nil => intro acc; simp
  | cons d tl ih =>
    intro acc
    rw [List.foldl_cons, ih, stable_step_eq, List.filter_cons]
    by_cases hd : estimate_in_domain d
    · rw [if_pos hd, if_pos (by simpa using hd)]
      simp
    · rw [if_neg hd, if_neg (by simpa using hd)]

open Classical in
/-- C6: the multilayer stability filter discards entries with a `None` gamma
or omega estimate without the geometric test, and keeps exactly the entries
of its input whose estimate point passes the sign test with the same truth
value on every centroid-oriented polygon edge; the output is a sublist of
the input. -/
theorem stable_partitions_filter_spec (l : List DomainEst) :
    List.Sublist (gamma_omega_estimates_to_stable_partitions l) l ∧
    ∀ d : DomainEst,
      d ∈ gamma_omega_estimates_to_stable_partitions l ↔ d ∈ l ∧ estimate_in_domain d := by
  have h : gamma_omega_estimates_to_stable_partitions l =
      l.filter fun d => decide (estimate_in_domain d) := by
    rw [gamma_omega_estimates_to_stable_partitions, stable_foldl_eq, List.nil_append]
  rw [h]
  exact ⟨List.filter_sublist l, fun d => by simp [List.mem_filter]⟩

/-! ### The omega component of multilayer estimates is always a number -/

/-- Projects the entry list out of a pipeline result that also carries the
threaded graph (empty on error). -/
def ok_entries {α : Type} : Except String (Graph × List α) → List α
  | .ok (_, l) => l
  | .error _ => []

theorem bind_omega_shape (e1 : Except String (Graph × ℚ × ℚ × ℚ × ℕ))
    (e2 : Except String (ℚ → ℚ → ℚ → ℕ → ℝ)) (G2 : Graph) (g w : Option ℝ)
    (h : (do
      let (Ga, theta_in, theta_out, p, K) ← e1
      let update_omega ← e2
      return (Ga, gamma_estimate_from_parameters theta_in theta_out,
        some (update_omega theta_in theta_out p K))) = .ok (G2, g, w)) :
    w.isSome = true := by
  rcases e1 with e | ⟨Ga, theta_in, theta_out, p, K⟩
  · replace h : (Except.error e : Except String (Graph × Option ℝ × Option ℝ)) =
      .ok (G2, g, w) := h
    exact Except.noConfusion h
  · rcases e2 with e | u
    · replace h : (Except.error e : Except String (Graph × Option ℝ × Option ℝ)) =
        .ok (G2, g, w) := h
      exact Except.noConfusion h
    · replace h : Except.ok (Ga, gamma_estimate_from_parameters theta_in theta_out,
        some (u theta_in theta_out p K)) = .ok (G2, g, w) := h
      have hw : some (u theta_in theta_out p K) = w :=
        congrArg (fun x => x.2.2) (Except.ok.inj h)
      rw [← hw]
      rfl

theorem gamma_omega_estimate_omega_isSome (fsolve : (ℚ → ℚ) → ℚ → ℚ)
    (G_intralayer G_interlayer : Graph) (layer_vec membership : List ℕ)
    (omega_max : ℝ) (model : PyStr) (N T : Option ℕ) (Nt : Option (List ℕ))
    (m_t : Option (List ℚ)) (G2 : Graph) (g w : Option ℝ)
    (h : gamma_omega_estimate fsolve G_intralayer G_interlayer layer_vec membership
      omega_max model N T Nt m_t = .ok (G2, g, w)) :
    w.isSome = true := by
  exact bind_omega_shape _ _ G2 g w h

/-- C10: every entry produced by `domains_to_gamma_omega_estimates` (via
`gamma_omega_estimate`) carries an omega estimate that is a number, never the
`None` sentinel — so the discard condition of the stability filter,
`gamma_est is None or omega_est is None` coincides with `gamma_est is None`
on these entries, and the branch discarding a candidate for a `None` omega
estimate alone is never taken. -/
theorem gamma_omega_estimate_omega_never_none (fsolve : (ℚ → ℚ) → ℚ → ℚ)
    (G_interlayer : Graph) (layer_vec : List ℕ) (model : PyStr) :
    ∀ (domains : List (List (ℝ × ℝ) × List ℕ)) (G_intralayer : Graph),
      ((ok_entries (domains_to_gamma_omega_estimates fsolve G_intralayer G_interlayer
        layer_vec domains model)).all fun d =>
          d.omega_est.isSome &&
            ((d.gamma_est.isNone || d.omega_est.isNone) == d.gamma_est.isNone)) = true := by
  intro domains
  induction domains with
  | nil => intro G1; rfl
  | cons dom rest ih =>
    intro G1
    obtain ⟨polyverts, membership⟩ := dom
    unfold domains_to_gamma_omega_estimates
    rcases hgo : gamma_omega_estimate fsolve G1 G_interlayer layer_vec membership 1000
        model none none none none with e | ⟨G2, g, w⟩
    · rw [except_bind_error]
      rfl
    · simp only [except_bind_ok]
      have hw : w.isSome = true :=
        gamma_omega_estimate_omega_isSome fsolve G1 G_interlayer layer_vec membership
          1000 model none none none none G2 g w hgo
      have hrest := ih G2
      rcases hdom : domains_to_gamma_omega_estimates fsolve G2 G_interlayer layer_vec
          rest model with e2 | ⟨G3, l⟩
      · rw [except_bind_error]
        rfl
      · simp only [except_bind_ok]
        rw [hdom] at hrest
        obtain ⟨x, rfl⟩ := Option.isSome_iff_exists.mp hw
        simpa [ok_entries, pure, Except.pure, List.all_cons] using hrest

end ModularityPruning
